import Mathlib

/-!
Verification of the nextcloud-talk-recording control plane against its
specification.  The definitions below are a shallow embedding of the
code in src/nextcloud/talk/recording/Server.py (request admission and
the job-lifecycle registry).  Python dicts are embedded as association
lists, bytes as lists of naturals, machine words as naturals reduced
modulo 2^32, and the background threads as explicit state-passing
functions; the mutex-guarded sections of the source are single atomic
state transformers.
-/

namespace TalkRecording

/-- Python dict lookup (`d[k]` / `k in d`), embedded on an association list:
the value of the first pair whose key matches. -/
def dictGet {α : Type} (k : String) : List (String × α) → Option α
  | [] => none
  | (k', v) :: rest => if k' = k then some v else dictGet k rest

/-- Python `dict.pop(k)`: remove the entry for `k` (keys are unique in a
Python dict, so removing every matching pair is faithful). -/
def dictPop {α : Type} (k : String) : List (String × α) → List (String × α)
  | [] => []
  | (k', v) :: rest => if k' = k then dictPop k rest else (k', v) :: dictPop k rest

/-- Python `d[k] = v`.  The entry position differs from CPython (which keeps
the slot of an updated key), but no code under verification observes dict
iteration order, only lookups and removals. -/
def dictSet {α : Type} (k : String) (v : α) (d : List (String × α)) : List (String × α) :=
  dictPop k d ++ [(k, v)]

theorem dictGet_append_left {α : Type} (k : String) (d₁ d₂ : List (String × α))
    (h : (dictGet k d₁).isSome) : dictGet k (d₁ ++ d₂) = dictGet k d₁ := by
  induction d₁ with
  | nil => simp [dictGet] at h
  | cons p rest ih =>
    obtain ⟨k', v⟩ := p
    by_cases hk : k' = k
    · simp [dictGet, hk]
    · simp only [dictGet, hk, if_false, List.cons_append] at h ⊢
      exact ih h

theorem dictGet_append_right {α : Type} (k : String) (d₁ d₂ : List (String × α))
    (h : dictGet k d₁ = none) : dictGet k (d₁ ++ d₂) = dictGet k d₂ := by
  induction d₁ with
  | nil => rfl
  | cons p rest ih =>
    obtain ⟨k', v⟩ := p
    by_cases hk : k' = k
    · simp [dictGet, hk] at h
    · simp only [dictGet, hk, if_false, List.cons_append] at h ⊢
      exact ih h

theorem dictGet_dictPop_self {α : Type} (k : String) (d : List (String × α)) :
    dictGet k (dictPop k d) = none := by
  induction d with
  | nil => rfl
  | cons p rest ih =>
    obtain ⟨k', v⟩ := p
    by_cases h : k' = k
    · simp only [dictPop, if_pos h, ih]
    · simp only [dictPop, if_neg h, dictGet, if_neg h, ih]

theorem dictGet_dictPop_ne {α : Type} (k k' : String) (d : List (String × α)) (h : k' ≠ k) :
    dictGet k' (dictPop k d) = dictGet k' d := by
  induction d with
  | nil => rfl
  | cons p rest ih =>
    obtain ⟨k'', v⟩ := p
    by_cases hk : k'' = k
    · have hne : ¬ k'' = k' := by
        rw [hk]
        exact fun hc => h hc.symm
      simp only [dictPop, if_pos hk, dictGet, if_neg hne, ih]
    · simp only [dictPop, if_neg hk, dictGet]
      by_cases hk' : k'' = k'
      · simp only [if_pos hk']
      · simp only [if_neg hk', ih]

theorem dictGet_dictSet_self {α : Type} (k : String) (v : α) (d : List (String × α)) :
    dictGet k (dictSet k v d) = some v := by
  unfold dictSet
  rw [dictGet_append_right k _ _ (dictGet_dictPop_self k d)]
  simp [dictGet]

theorem dictGet_dictSet_ne {α : Type} (k k' : String) (v : α) (d : List (String × α))
    (h : k' ≠ k) : dictGet k' (dictSet k v d) = dictGet k' d := by
  unfold dictSet
  cases hd : dictGet k' (dictPop k d) with
  | none =>
    rw [dictGet_append_right k' _ _ hd]
    rw [dictGet_dictPop_ne k k' d h] at hd
    have hkk : ¬ k = k' := fun hc => h hc.symm
    simp [dictGet, hkk, hd]
  | some w =>
    rw [dictGet_append_left k' _ _ (by simp [hd])]
    rw [hd, ← dictGet_dictPop_ne k k' d h, hd]

/-- JSON values, as produced by Python's `json.loads` for the request body
(dicts embedded as association lists). -/
inductive Json : Type where
  | null : Json
  | bool (b : Bool) : Json
  | num (n : Int) : Json
  | str (s : String) : Json
  | arr (xs : List Json) : Json
  | obj (fields : List (String × Json)) : Json

/-- Lookup of a key in a JSON object (`data[k]` on a dict). -/
def Json.find : Json → String → Option Json
  | Json.obj fields, k => dictGet k fields
  | _, _ => none

/-- Python `k in data` for the dict bodies the endpoint documents; membership
tests on non-dict values are outside the documented request format. -/
def Json.hasKey (j : Json) (k : String) : Bool :=
  (j.find k).isSome

/-- Indexing `data[k]`, defined after a `hasKey` check has succeeded. -/
def Json.getD (j : Json) (k : String) : Json :=
  match j.find k with
  | some v => v
  | none => Json.null

/-- Value of `RECORDING_STATUS_AUDIO_AND_VIDEO` in `recording/__init__.py`. -/
def RECORDING_STATUS_AUDIO_AND_VIDEO : Int := 1

/-- Modelled from the spec: the `RecordingJob` collaborator (class `Service`,
whose module is not part of the sources under verification).  Only the
constructor arguments of `Service(backend, token, status, owner)` used by
`Server.py` are modelled; `start`/`stop` are external operations that may
fail, represented by explicit failure flags at the call sites. -/
structure Service : Type where
  backend : String
  token : String
  status : Json
  owner : Json

/-- HTTP error responses raised by the handlers (werkzeug exceptions). -/
inductive HttpErr : Type where
  | badRequest : HttpErr
  | forbidden : HttpErr
  | notFound : HttpErr
deriving DecidableEq

/-- A background thread spawned by a handler (`Thread(target=..., args=...)`).
`startTask` carries the actor data passed to `_startRecordingService`;
`stopTask` the optional actor data passed to `_stopRecordingService`. -/
inductive BgTask : Type where
  | startTask (service : Service) (actorType actorId : Json) : BgTask
  | stopTask (service : Service) (actorType actorId : Option Json) : BgTask

/-- Observable actions of a background service thread, in program order:
metric updates on `metricsRecordingsCurrent` / `metricsRecordingsTotal`
and the external `service.start` / `service.stop` invocations. -/
inductive MetricsEvent : Type where
  | gaugeInc (backend : String) : MetricsEvent
  | gaugeDec (backend : String) : MetricsEvent
  | counterInc (backend : String) : MetricsEvent
  | startCall (serviceId : String) : MetricsEvent
  | stopCall (serviceId : String) : MetricsEvent
deriving DecidableEq

/-- The shared mutable state of `Server.py`: the two registry dicts
(`services`, `servicesStopping`) and the two per-backend prometheus
metrics (a labelled child starts at 0 on first use). -/
structure RegState : Type where
  services : List (String × Service)
  servicesStopping : List (String × Service)
  metricsRecordingsCurrent : List (String × Int)
  metricsRecordingsTotal : List (String × Int)

/-- Value of a labelled prometheus metric child (0 before first use). -/
def metricGet (backend : String) (m : List (String × Int)) : Int :=
  (dictGet backend m).getD 0

/-- `metrics.labels(backend).inc()` / `.dec()`, as a signed addition. -/
def metricAdd (backend : String) (delta : Int) (m : List (String × Int)) :
    List (String × Int) :=
  dictSet backend (metricGet backend m + delta) m

theorem metricGet_metricAdd_self (b : String) (d : Int) (m : List (String × Int)) :
    metricGet b (metricAdd b d m) = metricGet b m + d := by
  simp [metricGet, metricAdd, dictGet_dictSet_self]

theorem metricGet_metricAdd_ne (b b' : String) (d : Int) (m : List (String × Int))
    (h : b' ≠ b) : metricGet b' (metricAdd b d m) = metricGet b' m := by
  simp [metricGet, metricAdd, dictGet_dictSet_ne b b' _ m h]

/-- Embedding of `startRecording` (Server.py lines 277-348): body-field
validation, then — under `servicesLock` — the `services` check, `Service`
construction and insertion; an accepted start spawns one
`_startRecordingService` thread.  `Except.ok (state, tasks)` is the `{}`
response together with the spawned background threads. -/
def startRecording (backend token : String) (data : Json) (st : RegState) :
    Except HttpErr (RegState × List BgTask) :=
  let serviceId := backend ++ "-" ++ token
  if data.hasKey "start" = false then Except.error HttpErr.badRequest else
  if (data.getD "start").hasKey "owner" = false then Except.error HttpErr.badRequest else
  if (data.getD "start").hasKey "actor" = false then Except.error HttpErr.badRequest else
  if ((data.getD "start").getD "actor").hasKey "type" = false then Except.error HttpErr.badRequest else
  if ((data.getD "start").getD "actor").hasKey "id" = false then Except.error HttpErr.badRequest else
  let status := if (data.getD "start").hasKey "status" then (data.getD "start").getD "status"
                else Json.num RECORDING_STATUS_AUDIO_AND_VIDEO
  let owner := (data.getD "start").getD "owner"
  let actorType := ((data.getD "start").getD "actor").getD "type"
  let actorId := ((data.getD "start").getD "actor").getD "id"
  if (dictGet serviceId st.services).isSome then
    Except.ok (st, [])
  else
    let service : Service := { backend := backend, token := token, status := status, owner := owner }
    Except.ok ({ st with services := dictSet serviceId service st.services },
      [BgTask.startTask service actorType actorId])

/-- Embedding of the `except` block of `_startRecordingService` (Server.py
lines 366-379), run under `servicesLock` when `service.start` raised: if the
key is gone the failure is only logged; otherwise the entry is popped and the
gauge decremented.  The returned events are the metric updates performed. -/
def startRecordingFailureHandler (service : Service) (st : RegState) :
    RegState × List MetricsEvent :=
  let serviceId := service.backend ++ "-" ++ service.token
  if (dictGet serviceId st.services).isNone then
    (st, [])
  else
    ({ st with services := dictPop serviceId st.services,
               metricsRecordingsCurrent :=
                 metricAdd service.backend (-1) st.metricsRecordingsCurrent },
     [MetricsEvent.gaugeDec service.backend])

/-- Embedding of `_startRecordingService` (Server.py lines 350-380): increment
the gauge and the counter, call `service.start` (external; `startRaises`
says whether it raises), and on failure run the locked handler.  The event
list records the metric updates and the `start` call in program order; the
function is total — the `except Exception` clause confines any failure of
`service.start` to the thread.  `incMetricsState` is the pair of metric
increments performed at the top of the thread. -/
def incMetricsState (backend : String) (st : RegState) : RegState :=
  { st with metricsRecordingsCurrent := metricAdd backend 1 st.metricsRecordingsCurrent,
            metricsRecordingsTotal := metricAdd backend 1 st.metricsRecordingsTotal }

def startRecordingService (service : Service) (_actorType _actorId : Json)
    (startRaises : Bool) (st : RegState) : RegState × List MetricsEvent :=
  let serviceId := service.backend ++ "-" ++ service.token
  let st1 := incMetricsState service.backend st
  let prefixEvents := [MetricsEvent.gaugeInc service.backend,
    MetricsEvent.counterInc service.backend, MetricsEvent.startCall serviceId]
  if startRaises then
    ((startRecordingFailureHandler service st1).1,
      prefixEvents ++ (startRecordingFailureHandler service st1).2)
  else
    (st1, prefixEvents)

/-- Embedding of `stopRecording` (Server.py lines 382-437): the `stop` field
check and actor extraction, then — under `servicesLock` — the idempotent
no-op when the key is only in `servicesStopping`, `NotFound` when it is in
neither dict, and otherwise the atomic move from `services` to
`servicesStopping`; an accepted stop spawns one `_stopRecordingService`
thread.  `stopActorPresent` is the guard of the actor extraction. -/
def stopActorPresent (data : Json) : Bool :=
  (data.getD "stop").hasKey "actor" &&
    ((data.getD "stop").getD "actor").hasKey "type" &&
    ((data.getD "stop").getD "actor").hasKey "id"

/-- The `actorType` extracted by `stopRecording` (`None` when absent). -/
def stopActorType (data : Json) : Option Json :=
  if stopActorPresent data then some (((data.getD "stop").getD "actor").getD "type") else none

/-- The `actorId` extracted by `stopRecording` (`None` when absent). -/
def stopActorId (data : Json) : Option Json :=
  if stopActorPresent data then some (((data.getD "stop").getD "actor").getD "id") else none

def stopRecording (backend token : String) (data : Json) (st : RegState) :
    Except HttpErr (RegState × List BgTask) :=
  let serviceId := backend ++ "-" ++ token
  if data.hasKey "stop" = false then Except.error HttpErr.badRequest else
  let actorType : Option Json := stopActorType data
  let actorId : Option Json := stopActorId data
  if (dictGet serviceId st.services).isNone && (dictGet serviceId st.servicesStopping).isSome then
    Except.ok (st, [])
  else
    match dictGet serviceId st.services with
    | none => Except.error HttpErr.notFound
    | some service =>
      Except.ok ({ st with services := dictPop serviceId st.services,
                           servicesStopping := dictSet serviceId service st.servicesStopping },
        [BgTask.stopTask service actorType actorId])

/-- Embedding of `_stopRecordingService` (Server.py lines 439-462): call
`service.stop` (external; `stopRaises` says whether it raises — the raise is
caught and only logged), then in the `finally` block, under `servicesLock`,
pop the key from `servicesStopping` (logging an internal-consistency error
if it is absent) and decrement the gauge.  Total by construction: no
exception escapes the thread. -/
def stopRecordingService (service : Service) (_stopRaises : Bool) (st : RegState) :
    RegState × List MetricsEvent :=
  let serviceId := service.backend ++ "-" ++ service.token
  let st1 := if (dictGet serviceId st.servicesStopping).isNone then st
             else { st with servicesStopping := dictPop serviceId st.servicesStopping }
  let st2 := { st1 with
    metricsRecordingsCurrent := metricAdd service.backend (-1) st1.metricsRecordingsCurrent }
  (st2, [MetricsEvent.stopCall serviceId, MetricsEvent.gaugeDec service.backend])

/-- Whole-system state for the concurrency model: the lock-protected
registry plus the background threads that have been spawned but whose
state-mutating sections have not yet run. -/
structure SysState : Type where
  reg : RegState
  pending : List BgTask

/-- Interleaving semantics of the server.  Each step is one atomic piece of
the source: a request handler's validation plus locked section (`httpStart`,
`httpStop`, which also spawn their background thread), or the run of a
spawned background thread (`runStart` covers both the successful
`service.start` and the raising one with its locked `except` handler;
`runStop` the `_stopRecordingService` body with its locked `finally`).
The metric updates of a background thread are not individually interleaved
here because they touch no registry dict. -/
inductive Step : SysState → SysState → Prop where
  | httpStart (s : SysState) (backend token : String) (data : Json)
      (st' : RegState) (ts : List BgTask)
      (h : startRecording backend token data s.reg = Except.ok (st', ts)) :
      Step s { reg := st', pending := s.pending ++ ts }
  | httpStop (s : SysState) (backend token : String) (data : Json)
      (st' : RegState) (ts : List BgTask)
      (h : stopRecording backend token data s.reg = Except.ok (st', ts)) :
      Step s { reg := st', pending := s.pending ++ ts }
  | runStart (s : SysState) (i : Fin s.pending.length) (service : Service)
      (actorType actorId : Json) (raises : Bool)
      (h : s.pending.get i = BgTask.startTask service actorType actorId) :
      Step s { reg := (startRecordingService service actorType actorId raises s.reg).1,
               pending := s.pending.eraseIdx i }
  | runStop (s : SysState) (i : Fin s.pending.length) (service : Service)
      (actorType actorId : Option Json) (raises : Bool)
      (h : s.pending.get i = BgTask.stopTask service actorType actorId) :
      Step s { reg := (stopRecordingService service raises s.reg).1,
               pending := s.pending.eraseIdx i }

/-- The state at process start: empty registry, no metrics children, no
background threads. -/
def initialState : SysState :=
  { reg := { services := [], servicesStopping := [],
             metricsRecordingsCurrent := [], metricsRecordingsTotal := [] },
    pending := [] }

/-- States reachable by some interleaving of requests and background
thread completions. -/
def Reachable (s : SysState) : Prop :=
  Relation.ReflTransGen Step initialState s

/-- Restricted interleavings for the amended registry invariant: identical to
`Step` except that a start request is only taken when its key is absent from
`servicesStopping` (the check the specification prescribes but
`startRecording` does not perform). -/
inductive StepSafe : SysState → SysState → Prop where
  | httpStart (s : SysState) (backend token : String) (data : Json)
      (st' : RegState) (ts : List BgTask)
      (hsafe : dictGet (backend ++ "-" ++ token) s.reg.servicesStopping = none)
      (h : startRecording backend token data s.reg = Except.ok (st', ts)) :
      StepSafe s { reg := st', pending := s.pending ++ ts }
  | httpStop (s : SysState) (backend token : String) (data : Json)
      (st' : RegState) (ts : List BgTask)
      (h : stopRecording backend token data s.reg = Except.ok (st', ts)) :
      StepSafe s { reg := st', pending := s.pending ++ ts }
  | runStart (s : SysState) (i : Fin s.pending.length) (service : Service)
      (actorType actorId : Json) (raises : Bool)
      (h : s.pending.get i = BgTask.startTask service actorType actorId) :
      StepSafe s { reg := (startRecordingService service actorType actorId raises s.reg).1,
                   pending := s.pending.eraseIdx i }
  | runStop (s : SysState) (i : Fin s.pending.length) (service : Service)
      (actorType actorId : Option Json) (raises : Bool)
      (h : s.pending.get i = BgTask.stopTask service actorType actorId) :
      StepSafe s { reg := (stopRecordingService service raises s.reg).1,
                   pending := s.pending.eraseIdx i }

/-- States reachable when no start request is ever accepted while its key is
still in `servicesStopping`. -/
def ReachableSafe (s : SysState) : Prop :=
  Relation.ReflTransGen StepSafe initialState s

/-- The body-field validation of `startRecording` as a single predicate. -/
def startDataValid (data : Json) : Bool :=
  data.hasKey "start" && (data.getD "start").hasKey "owner" &&
    (data.getD "start").hasKey "actor" &&
    ((data.getD "start").getD "actor").hasKey "type" &&
    ((data.getD "start").getD "actor").hasKey "id"

/-- The `Service` object a successful `startRecording` constructs. -/
def serviceOf (backend token : String) (data : Json) : Service :=
  { backend := backend, token := token,
    status := if (data.getD "start").hasKey "status" then (data.getD "start").getD "status"
              else Json.num RECORDING_STATUS_AUDIO_AND_VIDEO,
    owner := (data.getD "start").getD "owner" }

/-- Shape of every successful `startRecording` call: either the key was
already in `services` and nothing happened, or the key was absent, the data
was valid, and exactly the constructed job was inserted with one spawned
start thread. -/
theorem startRecording_ok_cases (backend token : String) (data : Json)
    (st st' : RegState) (ts : List BgTask)
    (h : startRecording backend token data st = Except.ok (st', ts)) :
    ((dictGet (backend ++ "-" ++ token) st.services).isSome ∧ st' = st ∧ ts = []) ∨
    (dictGet (backend ++ "-" ++ token) st.services = none ∧ startDataValid data = true ∧
      st' = { st with services := dictSet (backend ++ "-" ++ token)
                        (serviceOf backend token data) st.services } ∧
      ts = [BgTask.startTask (serviceOf backend token data)
              (((data.getD "start").getD "actor").getD "type")
              (((data.getD "start").getD "actor").getD "id")]) := by
  unfold startRecording at h
  by_cases h1 : data.hasKey "start" = false
  · rw [if_pos h1] at h
    exact absurd h (by simp)
  rw [if_neg h1] at h
  by_cases h2 : (data.getD "start").hasKey "owner" = false
  · rw [if_pos h2] at h
    exact absurd h (by simp)
  rw [if_neg h2] at h
  by_cases h3 : (data.getD "start").hasKey "actor" = false
  · rw [if_pos h3] at h
    exact absurd h (by simp)
  rw [if_neg h3] at h
  by_cases h4 : ((data.getD "start").getD "actor").hasKey "type" = false
  · rw [if_pos h4] at h
    exact absurd h (by simp)
  rw [if_neg h4] at h
  by_cases h5 : ((data.getD "start").getD "actor").hasKey "id" = false
  · rw [if_pos h5] at h
    exact absurd h (by simp)
  rw [if_neg h5] at h
  by_cases h6 : (dictGet (backend ++ "-" ++ token) st.services).isSome
  · left
    rw [if_pos h6] at h
    simp only [Except.ok.injEq, Prod.mk.injEq] at h
    exact ⟨h6, h.1.symm, h.2.symm⟩
  · right
    rw [if_neg h6] at h
    have hnone : dictGet (backend ++ "-" ++ token) st.services = none := by
      cases hg : dictGet (backend ++ "-" ++ token) st.services with
      | none => rfl
      | some v => exact absurd (by simp [hg]) h6
    have hvalid : startDataValid data = true := by
      unfold startDataValid
      simp only [Bool.and_eq_true]
      refine ⟨⟨⟨⟨?_, ?_⟩, ?_⟩, ?_⟩, ?_⟩ <;> simp_all
    simp only [Except.ok.injEq, Prod.mk.injEq] at h
    refine ⟨hnone, hvalid, ?_, ?_⟩
    · rw [← h.1]
      rfl
    · rw [← h.2]
      rfl

/-- Shape of every successful `stopRecording` call: either it was the
idempotent no-op (key only in `servicesStopping`), or the key was in
`services` and was moved, under the single locked section, to
`servicesStopping`, with one spawned stop thread. -/
theorem stopRecording_ok_cases (backend token : String) (data : Json)
    (st st' : RegState) (ts : List BgTask)
    (h : stopRecording backend token data st = Except.ok (st', ts)) :
    (st' = st ∧ ts = []) ∨
    (∃ service actorType actorId,
      dictGet (backend ++ "-" ++ token) st.services = some service ∧
      st' = { st with services := dictPop (backend ++ "-" ++ token) st.services,
                      servicesStopping := dictSet (backend ++ "-" ++ token) service
                        st.servicesStopping } ∧
      ts = [BgTask.stopTask service actorType actorId]) := by
  unfold stopRecording at h
  by_cases h1 : data.hasKey "stop" = false
  · rw [if_pos h1] at h
    exact absurd h (by simp)
  rw [if_neg h1] at h
  by_cases h2 : ((dictGet (backend ++ "-" ++ token) st.services).isNone &&
      (dictGet (backend ++ "-" ++ token) st.servicesStopping).isSome) = true
  · rw [if_pos h2] at h
    simp only [Except.ok.injEq, Prod.mk.injEq] at h
    exact Or.inl ⟨h.1.symm, h.2.symm⟩
  · rw [if_neg h2] at h
    cases hg : dictGet (backend ++ "-" ++ token) st.services with
    | none =>
      rw [hg] at h
      exact absurd h (by simp)
    | some service =>
      rw [hg] at h
      simp only [Except.ok.injEq, Prod.mk.injEq] at h
      exact Or.inr ⟨service, _, _, rfl, h.1.symm, h.2.symm⟩

/-- The registry after an accepted start: the constructed job inserted
under its key. -/
def startedState (backend token : String) (data : Json) (st : RegState) : RegState :=
  { st with services := dictSet (backend ++ "-" ++ token)
                          (serviceOf backend token data) st.services }

/-- A well-formed start request body, used as concrete input. -/
def exStartData : Json :=
  Json.obj [("type", Json.str "start"),
    ("start", Json.obj [("owner", Json.str "user0"),
      ("actor", Json.obj [("type", Json.str "users"), ("id", Json.str "user0")])])]

/-- A well-formed stop request body, used as concrete input. -/
def exStopData : Json :=
  Json.obj [("type", Json.str "stop"), ("stop", Json.obj [])]

/-- A concrete job object, used as concrete input. -/
def exService : Service :=
  { backend := "a", token := "b", status := Json.num 1, owner := Json.str "user0" }

/-- A registry state whose only entry for key `a-b` sits in
`servicesStopping` (as after an accepted stop whose background stop thread
has not yet completed). -/
def exStoppingOnlyState : RegState :=
  { services := [], servicesStopping := [("a-b", exService)],
    metricsRecordingsCurrent := [("a", 1)], metricsRecordingsTotal := [("a", 1)] }

/-- C1, counterexample: with the key `a-b` present in the stopping mapping
(and absent from the running mapping), `startRecording` does not return the
AlreadyActive no-op demanded by the claim — it constructs a job, inserts it
into `services`, and spawns a background start thread. -/
theorem c1_counterexample :
    (dictGet ("a" ++ "-" ++ "b") exStoppingOnlyState.servicesStopping).isSome = true ∧
    ∃ st' task,
      startRecording "a" "b" exStartData exStoppingOnlyState = Except.ok (st', [task]) ∧
      (dictGet ("a" ++ "-" ++ "b") st'.services).isSome = true :=
  ⟨rfl, _, _, rfl, rfl⟩

/-- C1 (amended): for a valid start body, `tryStart` returns the
AlreadyActive no-op success — no job constructed, nothing inserted, no
background start spawned — exactly when the key is present in the running
mapping `services`; the stopping mapping is not consulted.  Whenever the key
is absent from `services` (even if present in `servicesStopping`) it
constructs the job, inserts it into `services`, and spawns exactly one
background start thread. -/
theorem c1_amended_tryStart (backend token : String) (data : Json) (st : RegState)
    (hvalid : startDataValid data = true) :
    ((dictGet (backend ++ "-" ++ token) st.services).isSome = true →
      startRecording backend token data st = Except.ok (st, [])) ∧
    (dictGet (backend ++ "-" ++ token) st.services = none →
      startRecording backend token data st =
        Except.ok (startedState backend token data st,
          [BgTask.startTask (serviceOf backend token data)
            (((data.getD "start").getD "actor").getD "type")
            (((data.getD "start").getD "actor").getD "id")])) := by
  simp only [startDataValid, Bool.and_eq_true] at hvalid
  obtain ⟨⟨⟨⟨h1, h2⟩, h3⟩, h4⟩, h5⟩ := hvalid
  constructor
  · intro h6
    unfold startRecording
    rw [if_neg (by simp [h1]), if_neg (by simp [h2]), if_neg (by simp [h3]),
      if_neg (by simp [h4]), if_neg (by simp [h5]), if_pos h6]
  · intro h6
    unfold startRecording
    rw [if_neg (by simp [h1]), if_neg (by simp [h2]), if_neg (by simp [h3]),
      if_neg (by simp [h4]), if_neg (by simp [h5]), if_neg (by simp [h6])]
    simp only [startedState, serviceOf]

/-- C1, witness for the amended theorem at concrete inputs. -/
theorem c1_amended_tryStart_witness :
    startDataValid exStartData = true ∧
    startRecording "a" "b" exStartData exStoppingOnlyState =
      Except.ok (startedState "a" "b" exStartData exStoppingOnlyState,
        [BgTask.startTask (serviceOf "a" "b" exStartData)
          (((exStartData.getD "start").getD "actor").getD "type")
          (((exStartData.getD "start").getD "actor").getD "id")]) :=
  ⟨rfl, (c1_amended_tryStart "a" "b" exStartData exStoppingOnlyState rfl).2 rfl⟩

/-- The empty registry, as at process start. -/
def emptyRegState : RegState :=
  { services := [], servicesStopping := [],
    metricsRecordingsCurrent := [], metricsRecordingsTotal := [] }

/-- C10: the registry key is the plain string concatenation
`backendId + "-" + roomToken`, so the distinct pairs `("a-b", "c")` and
`("a", "b-c")` collide on the key `a-b-c`: after a start for the first pair,
a start for the second is answered with the AlreadyActive no-op, and a stop
for the second pair moves (and spawns a stop thread for) the job that was
created for the first pair. -/
theorem c10_key_collision :
    ∃ st1 task1,
      startRecording "a-b" "c" exStartData emptyRegState = Except.ok (st1, [task1]) ∧
      startRecording "a" "b-c" exStartData st1 = Except.ok (st1, []) ∧
      ∃ st2 service actorType actorId,
        stopRecording "a" "b-c" exStopData st1 =
          Except.ok (st2, [BgTask.stopTask service actorType actorId]) ∧
        service.backend = "a-b" ∧ service.token = "c" ∧
        st2.services = [] ∧ (dictGet "a-b-c" st2.servicesStopping).isSome = true :=
  ⟨_, _, rfl, rfl, _, _, _, _, rfl, rfl, rfl, rfl, rfl⟩

/-- The registry after an accepted stop: the job moved from `services` to
`servicesStopping` under the one locked section. -/
def movedState (serviceId : String) (service : Service) (st : RegState) : RegState :=
  { st with services := dictPop serviceId st.services,
            servicesStopping := dictSet serviceId service st.servicesStopping }

/-- After `_stopRecordingService` runs, its service's key is absent from
`servicesStopping`, whether or not `service.stop` raised. -/
theorem stopRecordingService_stopping_absent (service : Service) (r : Bool) (st : RegState) :
    dictGet (service.backend ++ "-" ++ service.token)
      (stopRecordingService service r st).1.servicesStopping = none := by
  unfold stopRecordingService
  by_cases h : (dictGet (service.backend ++ "-" ++ service.token) st.servicesStopping).isNone
  · simp only [h, if_true]
    simpa [Option.isNone_iff_eq_none] using h
  · simp only [h, if_false]
    exact dictGet_dictPop_self _ _

/-- Removing an absent key from a dict is the identity. -/
theorem dictPop_of_none {α : Type} (k : String) (d : List (String × α))
    (h : dictGet k d = none) : dictPop k d = d := by
  induction d with
  | nil => rfl
  | cons p rest ih =>
    obtain ⟨k', v⟩ := p
    by_cases hk : k' = k
    · simp [dictGet, hk] at h
    · simp only [dictGet, if_neg hk] at h
      simp only [dictPop, if_neg hk, ih h]

/-- State effect of `_stopRecordingService`: the key gone from
`servicesStopping`, the gauge decremented, everything else untouched. -/
theorem stopRecordingService_fst (service : Service) (r : Bool) (st : RegState) :
    (stopRecordingService service r st).1 =
      { st with
        servicesStopping :=
          dictPop (service.backend ++ "-" ++ service.token) st.servicesStopping,
        metricsRecordingsCurrent :=
          metricAdd service.backend (-1) st.metricsRecordingsCurrent } := by
  simp only [stopRecordingService]
  by_cases h : (dictGet (service.backend ++ "-" ++ service.token) st.servicesStopping).isNone = true
  · rw [if_pos h, dictPop_of_none _ _ (Option.isNone_iff_eq_none.mp h)]
  · rw [if_neg h]

/-- `_stopRecordingService` decrements its backend's gauge by exactly one. -/
theorem stopRecordingService_gauge (service : Service) (r : Bool) (st : RegState) :
    metricGet service.backend
        (stopRecordingService service r st).1.metricsRecordingsCurrent =
      metricGet service.backend st.metricsRecordingsCurrent - 1 := by
  rw [stopRecordingService_fst]
  show metricGet service.backend
      (metricAdd service.backend (-1) st.metricsRecordingsCurrent) = _
  rw [metricGet_metricAdd_self]
  omega

/-- The event trace of `_stopRecordingService` is exactly the external stop
call followed by one gauge decrement. -/
theorem stopRecordingService_events (service : Service) (r : Bool) (st : RegState) :
    (stopRecordingService service r st).2 =
      [MetricsEvent.stopCall (service.backend ++ "-" ++ service.token),
       MetricsEvent.gaugeDec service.backend] := by
  unfold stopRecordingService
  by_cases h : (dictGet (service.backend ++ "-" ++ service.token) st.servicesStopping).isNone
  · simp only [h, if_true]
  · simp only [h, if_false]

/-- C3: for a body passing the `stop` field check, `tryStop` is the
idempotent no-op success when the key is absent from `services` but present
in `servicesStopping`, raises NotFound when it is absent from both, and
otherwise — under one lock acquisition — moves the job from `services` to
`servicesStopping` and spawns one stop thread; for every accepted stop,
whether or not `service.stop` raises, the background stop run removes the
key from `servicesStopping` and decrements the backend's current-recordings
gauge exactly once (its trace holds exactly one decrement event).  The
background stop function is total: the `except`/`finally` structure confines
every failure of `service.stop` to the thread. -/
theorem c3_tryStop (backend token : String) (data : Json) (st : RegState)
    (hdata : data.hasKey "stop" = true) :
    ((dictGet (backend ++ "-" ++ token) st.services = none ∧
        (dictGet (backend ++ "-" ++ token) st.servicesStopping).isSome = true) →
      stopRecording backend token data st = Except.ok (st, [])) ∧
    ((dictGet (backend ++ "-" ++ token) st.services = none ∧
        dictGet (backend ++ "-" ++ token) st.servicesStopping = none) →
      stopRecording backend token data st = Except.error HttpErr.notFound) ∧
    (∀ service, dictGet (backend ++ "-" ++ token) st.services = some service →
      service.backend = backend → service.token = token →
      ∃ actorType actorId,
        stopRecording backend token data st =
          Except.ok (movedState (backend ++ "-" ++ token) service st,
            [BgTask.stopTask service actorType actorId]) ∧
        ∀ stopRaises : Bool,
          dictGet (backend ++ "-" ++ token)
              (stopRecordingService service stopRaises
                (movedState (backend ++ "-" ++ token) service st)).1.servicesStopping = none ∧
          metricGet backend
              (stopRecordingService service stopRaises
                (movedState (backend ++ "-" ++ token) service st)).1.metricsRecordingsCurrent =
            metricGet backend st.metricsRecordingsCurrent - 1 ∧
          (stopRecordingService service stopRaises
              (movedState (backend ++ "-" ++ token) service st)).2.count
            (MetricsEvent.gaugeDec backend) = 1) := by
  have hdata' : ¬ data.hasKey "stop" = false := by simp [hdata]
  refine ⟨?_, ?_, ?_⟩
  · intro h
    unfold stopRecording
    rw [if_neg hdata', if_pos (by simp [h.1, h.2])]
  · intro h
    unfold stopRecording
    rw [if_neg hdata', if_neg (by simp [h.1, h.2]), h.1]
  · intro service hsvc hb ht
    refine ⟨stopActorType data, stopActorId data, ?_, ?_⟩
    · unfold stopRecording
      rw [if_neg hdata', if_neg (by simp [hsvc]), hsvc]
      rfl
    · intro stopRaises
      refine ⟨?_, ?_, ?_⟩
      · have := stopRecordingService_stopping_absent service stopRaises
          (movedState (backend ++ "-" ++ token) service st)
        rwa [hb, ht] at this
      · have := stopRecordingService_gauge service stopRaises
          (movedState (backend ++ "-" ++ token) service st)
        rwa [hb] at this
      · rw [stopRecordingService_events service stopRaises
          (movedState (backend ++ "-" ++ token) service st), hb]
        simp [List.count_cons]

/-- A registry state whose only entry for key `a-b` sits in `services`. -/
def exRunningOnlyState : RegState :=
  { services := [("a-b", exService)], servicesStopping := [],
    metricsRecordingsCurrent := [("a", 1)], metricsRecordingsTotal := [("a", 1)] }

/-- C3, witness at concrete inputs (with a raising `service.stop`). -/
theorem c3_tryStop_witness :
    exStopData.hasKey "stop" = true ∧
    dictGet ("a" ++ "-" ++ "b") exRunningOnlyState.services = some exService ∧
    ∃ actorType actorId,
      stopRecording "a" "b" exStopData exRunningOnlyState =
        Except.ok (movedState ("a" ++ "-" ++ "b") exService exRunningOnlyState,
          [BgTask.stopTask exService actorType actorId]) ∧
      dictGet ("a" ++ "-" ++ "b")
        (stopRecordingService exService true
          (movedState ("a" ++ "-" ++ "b") exService exRunningOnlyState)).1.servicesStopping =
        none := by
  refine ⟨rfl, rfl, ?_⟩
  obtain ⟨aT, aI, heq, hrest⟩ :=
    (c3_tryStop "a" "b" exStopData exRunningOnlyState rfl).2.2 exService rfl rfl rfl
  exact ⟨aT, aI, heq, (hrest true).1⟩

/-- C8: the background start-failure handler (the locked `except` block of
`_startRecordingService`): if the key is no longer in `services` the
registry, gauge and counter are left entirely unchanged; if it is still
there, exactly that entry is removed, the backend's gauge is decremented
once, the counter and the stopping mapping are untouched, and no other
`services` entry or other backend's gauge changes.  The handler is total:
the exception it handles never propagates out of the thread. -/
theorem c8_startFailure (service : Service) (st : RegState) :
    (dictGet (service.backend ++ "-" ++ service.token) st.services = none →
      startRecordingFailureHandler service st = (st, [])) ∧
    ((dictGet (service.backend ++ "-" ++ service.token) st.services).isSome = true →
      dictGet (service.backend ++ "-" ++ service.token)
          (startRecordingFailureHandler service st).1.services = none ∧
      (∀ k, k ≠ service.backend ++ "-" ++ service.token →
        dictGet k (startRecordingFailureHandler service st).1.services =
          dictGet k st.services) ∧
      (startRecordingFailureHandler service st).1.servicesStopping = st.servicesStopping ∧
      metricGet service.backend
          (startRecordingFailureHandler service st).1.metricsRecordingsCurrent =
        metricGet service.backend st.metricsRecordingsCurrent - 1 ∧
      (∀ b, b ≠ service.backend →
        metricGet b (startRecordingFailureHandler service st).1.metricsRecordingsCurrent =
          metricGet b st.metricsRecordingsCurrent) ∧
      (startRecordingFailureHandler service st).1.metricsRecordingsTotal =
        st.metricsRecordingsTotal) := by
  constructor
  · intro h
    unfold startRecordingFailureHandler
    rw [if_pos (by simp [h])]
  · intro h
    have h' : ¬ (dictGet (service.backend ++ "-" ++ service.token) st.services).isNone = true := by
      simp only [Option.isNone_iff_eq_none]
      intro hc
      rw [hc] at h
      exact absurd h (by simp)
    unfold startRecordingFailureHandler
    rw [if_neg h']
    refine ⟨dictGet_dictPop_self _ _, ?_, rfl, ?_, ?_, rfl⟩
    · intro k hk
      exact dictGet_dictPop_ne _ k st.services hk
    · rw [metricGet_metricAdd_self]
      omega
    · intro b hb
      exact metricGet_metricAdd_ne _ b _ _ hb

/-- C8, witness at concrete inputs. -/
theorem c8_startFailure_witness :
    (dictGet ("a" ++ "-" ++ "b") exRunningOnlyState.services).isSome = true ∧
    dictGet ("a" ++ "-" ++ "b")
      (startRecordingFailureHandler exService exRunningOnlyState).1.services = none ∧
    (startRecordingFailureHandler exService exRunningOnlyState).1.metricsRecordingsTotal =
      exRunningOnlyState.metricsRecordingsTotal :=
  ⟨rfl, ((c8_startFailure exService exRunningOnlyState).2 rfl).1,
    ((c8_startFailure exService exRunningOnlyState).2 rfl).2.2.2.2.2⟩

/-- The events of the start-failure handler: at most one gauge decrement. -/
theorem startRecordingFailureHandler_events (service : Service) (st : RegState) :
    (startRecordingFailureHandler service st).2 = [] ∨
    (startRecordingFailureHandler service st).2 = [MetricsEvent.gaugeDec service.backend] := by
  unfold startRecordingFailureHandler
  by_cases h : (dictGet (service.backend ++ "-" ++ service.token) st.services).isNone
  · rw [if_pos h]
    exact Or.inl rfl
  · rw [if_neg h]
    exact Or.inr rfl

/-- The event trace of `_startRecordingService`: gauge increment, counter
increment, then the external start call — followed by a gauge decrement
exactly when the call raised with the key still registered. -/
theorem startRecordingService_trace (service : Service) (aT aI : Json)
    (raises : Bool) (st : RegState) :
    (startRecordingService service aT aI raises st).2 =
      [MetricsEvent.gaugeInc service.backend, MetricsEvent.counterInc service.backend,
       MetricsEvent.startCall (service.backend ++ "-" ++ service.token)] ∨
    (startRecordingService service aT aI raises st).2 =
      [MetricsEvent.gaugeInc service.backend, MetricsEvent.counterInc service.backend,
       MetricsEvent.startCall (service.backend ++ "-" ++ service.token),
       MetricsEvent.gaugeDec service.backend] := by
  simp only [startRecordingService]
  by_cases hr : raises = true
  · rw [if_pos hr]
    rcases startRecordingFailureHandler_events service
        (incMetricsState service.backend st) with hev | hev
    · left
      rw [hev]
      rfl
    · right
      rw [hev]
      rfl
  · rw [if_neg hr]
    exact Or.inl rfl

/-- C9: the request path of `startRecording` never touches the metrics, a
rejected (AlreadyActive) start spawns no background thread at all, and the
background thread of every accepted start emits exactly one gauge increment
and exactly one counter increment for the job's backend, both ordered before
the `service.start` invocation in its trace — whether or not that invocation
then raises. -/
theorem c9_metrics_on_start (backend token : String) (data : Json) (st : RegState) :
    (∀ st' ts, startRecording backend token data st = Except.ok (st', ts) →
      st'.metricsRecordingsCurrent = st.metricsRecordingsCurrent ∧
      st'.metricsRecordingsTotal = st.metricsRecordingsTotal ∧
      ((dictGet (backend ++ "-" ++ token) st.services).isSome = true → ts = [])) ∧
    (∀ st' service actorType actorId,
      startRecording backend token data st =
          Except.ok (st', [BgTask.startTask service actorType actorId]) →
      ∀ (raises : Bool) (st1 : RegState),
        (startRecordingService service actorType actorId raises st1).2.count
            (MetricsEvent.gaugeInc service.backend) = 1 ∧
        (startRecordingService service actorType actorId raises st1).2.count
            (MetricsEvent.counterInc service.backend) = 1 ∧
        ∃ rest, (startRecordingService service actorType actorId raises st1).2 =
          MetricsEvent.gaugeInc service.backend :: MetricsEvent.counterInc service.backend ::
            MetricsEvent.startCall (service.backend ++ "-" ++ service.token) :: rest) := by
  constructor
  · intro st' ts h
    rcases startRecording_ok_cases backend token data st st' ts h with
      ⟨hin, hst, hts⟩ | ⟨hout, _, hst, hts⟩
    · subst hst
      exact ⟨rfl, rfl, fun _ => hts⟩
    · refine ⟨by rw [hst], by rw [hst], fun hsome => ?_⟩
      rw [hout] at hsome
      exact absurd hsome (by simp)
  · intro st' service actorType actorId _ raises st1
    rcases startRecordingService_trace service actorType actorId raises st1 with hev | hev
    · rw [hev]
      refine ⟨?_, ?_, ⟨[], rfl⟩⟩
      · simp [List.count_cons]
      · simp [List.count_cons]
    · rw [hev]
      refine ⟨?_, ?_, ⟨[MetricsEvent.gaugeDec service.backend], rfl⟩⟩
      · simp [List.count_cons]
      · simp [List.count_cons]

/-- C9, witness at concrete inputs. -/
theorem c9_metrics_on_start_witness :
    startRecording "a" "b" exStartData emptyRegState =
      Except.ok (startedState "a" "b" exStartData emptyRegState,
        [BgTask.startTask (serviceOf "a" "b" exStartData)
          (Json.str "users") (Json.str "user0")]) ∧
    (startRecordingService (serviceOf "a" "b" exStartData)
        (Json.str "users") (Json.str "user0") true emptyRegState).2.count
      (MetricsEvent.gaugeInc "a") = 1 := by
  refine ⟨by rfl, ?_⟩
  have h := (c9_metrics_on_start "a" "b" exStartData emptyRegState).2 _ _ _ _ (by rfl)
    true emptyRegState
  exact h.1

/-- C2, counterexample: the interleaving start → stop → start for the same
key reaches a state in which `a-b` is present in `services` and in
`servicesStopping` simultaneously (the second start is accepted because
`startRecording` checks only `services`, never `servicesStopping`). -/
theorem c2_counterexample :
    ∃ s : SysState, Reachable s ∧
      (dictGet ("a" ++ "-" ++ "b") s.reg.services).isSome = true ∧
      (dictGet ("a" ++ "-" ++ "b") s.reg.servicesStopping).isSome = true := by
  refine ⟨_, Relation.ReflTransGen.tail (Relation.ReflTransGen.tail
      (Relation.ReflTransGen.single
        (Step.httpStart initialState "a" "b" exStartData _ _ rfl))
      (Step.httpStop _ "a" "b" exStopData _ _ rfl))
    (Step.httpStart _ "a" "b" exStartData _ _ rfl), ?_, ?_⟩
  · rfl
  · rfl

/-- Registry invariant: no key is in both mappings at once. -/
def NoDualEntry (st : RegState) : Prop :=
  ∀ k, ¬ ((dictGet k st.services).isSome = true ∧
          (dictGet k st.servicesStopping).isSome = true)

/-- A lookup that survives a `dictPop` was present before it. -/
theorem isSome_of_dictPop {α : Type} (k k' : String) (d : List (String × α))
    (h : (dictGet k (dictPop k' d)).isSome = true) : (dictGet k d).isSome = true := by
  by_cases hk : k = k'
  · subst hk
    rw [dictGet_dictPop_self] at h
    exact absurd h (by simp)
  · rwa [dictGet_dictPop_ne k' k d hk] at h

/-- A start request taken only when its key is absent from
`servicesStopping` preserves the invariant. -/
theorem NoDualEntry_startRecording (backend token : String) (data : Json)
    (st st' : RegState) (ts : List BgTask)
    (h : startRecording backend token data st = Except.ok (st', ts))
    (hsafe : dictGet (backend ++ "-" ++ token) st.servicesStopping = none)
    (hinv : NoDualEntry st) : NoDualEntry st' := by
  rcases startRecording_ok_cases backend token data st st' ts h with
    ⟨_, hst, _⟩ | ⟨hout, _, hst, _⟩
  · subst hst
    exact hinv
  · subst hst
    intro k hk
    have h1 : (dictGet k (dictSet (backend ++ "-" ++ token)
        (serviceOf backend token data) st.services)).isSome = true := hk.1
    have h2 : (dictGet k st.servicesStopping).isSome = true := hk.2
    by_cases hkey : k = backend ++ "-" ++ token
    · subst hkey
      rw [hsafe] at h2
      exact absurd h2 (by simp)
    · rw [dictGet_dictSet_ne _ k _ st.services hkey] at h1
      exact hinv k ⟨h1, h2⟩

/-- A stop request preserves the invariant. -/
theorem NoDualEntry_stopRecording (backend token : String) (data : Json)
    (st st' : RegState) (ts : List BgTask)
    (h : stopRecording backend token data st = Except.ok (st', ts))
    (hinv : NoDualEntry st) : NoDualEntry st' := by
  rcases stopRecording_ok_cases backend token data st st' ts h with
    ⟨hst, _⟩ | ⟨service, aT, aI, hsvc, hst, _⟩
  · subst hst
    exact hinv
  · subst hst
    intro k hk
    have h1 : (dictGet k (dictPop (backend ++ "-" ++ token) st.services)).isSome = true := hk.1
    have h2 : (dictGet k (dictSet (backend ++ "-" ++ token) service
        st.servicesStopping)).isSome = true := hk.2
    by_cases hkey : k = backend ++ "-" ++ token
    · subst hkey
      rw [dictGet_dictPop_self] at h1
      exact absurd h1 (by simp)
    · rw [dictGet_dictPop_ne _ k st.services hkey] at h1
      rw [dictGet_dictSet_ne _ k _ st.servicesStopping hkey] at h2
      exact hinv k ⟨h1, h2⟩

/-- The possible registry effects of `_startRecordingService`. -/
theorem startRecordingService_fst_cases (service : Service) (aT aI : Json)
    (raises : Bool) (st : RegState) :
    (startRecordingService service aT aI raises st).1 = incMetricsState service.backend st ∨
    (startRecordingService service aT aI raises st).1 =
      (startRecordingFailureHandler service (incMetricsState service.backend st)).1 := by
  simp only [startRecordingService]
  by_cases hr : raises = true
  · rw [if_pos hr]
    exact Or.inr rfl
  · rw [if_neg hr]
    exact Or.inl rfl

/-- The possible registry effects of the start-failure handler. -/
theorem startRecordingFailureHandler_fst_cases (service : Service) (st : RegState) :
    (startRecordingFailureHandler service st).1 = st ∨
    (startRecordingFailureHandler service st).1 =
      { st with services := dictPop (service.backend ++ "-" ++ service.token) st.services,
                metricsRecordingsCurrent :=
                  metricAdd service.backend (-1) st.metricsRecordingsCurrent } := by
  unfold startRecordingFailureHandler
  by_cases h : (dictGet (service.backend ++ "-" ++ service.token) st.services).isNone = true
  · rw [if_pos h]
    exact Or.inl rfl
  · rw [if_neg h]
    exact Or.inr rfl

/-- A background start run (successful or failing) preserves the invariant. -/
theorem NoDualEntry_startService (service : Service) (aT aI : Json) (raises : Bool)
    (st : RegState) (hinv : NoDualEntry st) :
    NoDualEntry (startRecordingService service aT aI raises st).1 := by
  rcases startRecordingService_fst_cases service aT aI raises st with hst | hst <;> rw [hst]
  · exact hinv
  · rcases startRecordingFailureHandler_fst_cases service
        (incMetricsState service.backend st) with hf | hf <;> rw [hf]
    · exact hinv
    · intro k hk
      have h1 : (dictGet k (dictPop (service.backend ++ "-" ++ service.token)
          st.services)).isSome = true := hk.1
      have h2 : (dictGet k st.servicesStopping).isSome = true := hk.2
      exact hinv k ⟨isSome_of_dictPop _ _ _ h1, h2⟩

/-- A background stop run (successful or failing) preserves the invariant. -/
theorem NoDualEntry_stopService (service : Service) (raises : Bool)
    (st : RegState) (hinv : NoDualEntry st) :
    NoDualEntry (stopRecordingService service raises st).1 := by
  rw [stopRecordingService_fst]
  intro k hk
  have h1 : (dictGet k st.services).isSome = true := hk.1
  have h2 : (dictGet k (dictPop (service.backend ++ "-" ++ service.token)
      st.servicesStopping)).isSome = true := hk.2
  exact hinv k ⟨h1, isSome_of_dictPop _ _ _ h2⟩

/-- C2 (amended): in every state reachable by an interleaving of start
requests, stop requests, background start runs (with their failure handler)
and background stop runs in which no start request is accepted while its key
is still in `servicesStopping`, no key is ever present in `services` and
`servicesStopping` at the same instant.  (Unrestricted interleavings violate
the invariant: see the counterexample.) -/
theorem c2_amended_invariant (s : SysState) (h : ReachableSafe s) :
    ∀ k, ¬ ((dictGet k s.reg.services).isSome = true ∧
            (dictGet k s.reg.servicesStopping).isSome = true) := by
  unfold ReachableSafe at h
  induction h with
  | refl =>
    intro k
    simp [initialState, dictGet]
  | tail hab hbc ih =>
    rename_i b c
    cases hbc with
    | httpStart backend token data st' ts hsafe hstep =>
      exact NoDualEntry_startRecording backend token data b.reg st' ts hstep hsafe ih
    | httpStop backend token data st' ts hstep =>
      exact NoDualEntry_stopRecording backend token data b.reg st' ts hstep ih
    | runStart i service actorType actorId raises hstep =>
      exact NoDualEntry_startService service actorType actorId raises b.reg ih
    | runStop i service actorType actorId raises hstep =>
      exact NoDualEntry_stopService service raises b.reg ih

/-- C2, witness: a concrete safe interleaving (start then stop) reaching a
state on which the amended invariant theorem applies. -/
theorem c2_amended_invariant_witness :
    ∃ s : SysState, ReachableSafe s ∧
      ¬ ((dictGet ("a" ++ "-" ++ "b") s.reg.services).isSome = true ∧
         (dictGet ("a" ++ "-" ++ "b") s.reg.servicesStopping).isSome = true) := by
  have hreach : ∃ s : SysState, ReachableSafe s :=
    ⟨_, Relation.ReflTransGen.tail
      (Relation.ReflTransGen.single
        (StepSafe.httpStart initialState "a" "b" exStartData _ _ rfl rfl))
      (StepSafe.httpStop _ "a" "b" exStopData _ _ rfl)⟩
  obtain ⟨s, hs⟩ := hreach
  exact ⟨s, hs, c2_amended_invariant s hs ("a" ++ "-" ++ "b")⟩

/-- Characters stripped by Python's `str.strip()` (the ASCII whitespace
actually occurring in HTTP headers). -/
def isPySpace (c : Char) : Bool :=
  c == ' ' || c == '\t' || c == '\n' || c == '\r' || c == Char.ofNat 11 || c == Char.ofNat 12

/-- Python `str.strip()`: remove leading and trailing whitespace. -/
def pyStrip (s : List Char) : List Char :=
  ((s.dropWhile isPySpace).reverse.dropWhile isPySpace).reverse

/-- Python `str.split(sep)` for a one-character separator (the empty string
splits to one empty entry, as in Python). -/
def splitOnChar (sep : Char) : List Char → List (List Char)
  | [] => [[]]
  | c :: rest =>
    match splitOnChar sep rest with
    | [] => [[]]
    | g :: gs => if c == sep then [] :: g :: gs else (c :: g) :: gs

/-- The group matched by `re.match('\\[(.*)\\]', address)` in
`_getAddressWithoutPort`: the address must open with `[` and the greedy
group extends to the last `]`. -/
def bracketContent : List Char → Option (List Char)
  | '[' :: rest =>
    match rest.reverse.dropWhile (fun c => !(c == ']')) with
    | [] => none
    | _ :: beforeRev => some beforeRev.reverse
  | _ => none

/-- Embedding of `_getAddressWithoutPort` (Server.py lines 134-158): strip a
trailing port, unbracketing IPv6-style literals; no validation. -/
def getAddressWithoutPort (address : List Char) : List Char :=
  let colons := address.count ':'
  if colons > 1 then
    match bracketContent address with
    | some inner => inner
    | none => address
  else if colons == 1 then
    address.takeWhile (fun c => !(c == ':'))
  else
    address

/-- An IPv4 address as its four octets. -/
structure IPv4Addr : Type where
  o1 : Nat
  o2 : Nat
  o3 : Nat
  o4 : Nat
deriving DecidableEq

/-- Octet parsing as in Python's `ipaddress`: non-empty, only ASCII digits,
at most three of them, no leading zero, value at most 255. -/
def parseOctet (s : List Char) : Option Nat :=
  if s.isEmpty then none
  else if !(s.all Char.isDigit) then none
  else if s.length > 3 then none
  else if decide (s.length > 1) && (s.headD ' ' == '0') then none
  else
    let n := s.foldl (fun acc c => acc * 10 + (c.toNat - 48)) 0
    if n > 255 then none else some n

/-- Embedding of Python's `ip_address`, restricted to IPv4 (the claims under
verification exercise only IPv4 inputs; an IPv6 literal, a hostname or any
other token counts as an unparsable entry here). -/
def ip_address (s : List Char) : Option IPv4Addr :=
  match splitOnChar '.' s with
  | [a, b, c, d] =>
    match parseOctet a, parseOctet b, parseOctet c, parseOctet d with
    | some x, some y, some z, some w => some { o1 := x, o2 := y, o3 := z, o4 := w }
    | _, _, _, _ => none
  | _ => none

/-- Decimal rendering of one octet. -/
def octetChars (n : Nat) : List Char :=
  if n < 10 then [Char.ofNat (48 + n)]
  else if n < 100 then [Char.ofNat (48 + n / 10), Char.ofNat (48 + n % 10)]
  else [Char.ofNat (48 + n / 100), Char.ofNat (48 + n / 10 % 10), Char.ofNat (48 + n % 10)]

/-- `IPv4Address.compressed`: canonical dotted-decimal form. -/
def IPv4Addr.compressed (a : IPv4Addr) : List Char :=
  octetChars a.o1 ++ '.' :: octetChars a.o2 ++ '.' :: octetChars a.o3 ++ '.' :: octetChars a.o4

/-- The 32-bit value of an address. -/
def IPv4Addr.toNat (a : IPv4Addr) : Nat :=
  ((a.o1 * 256 + a.o2) * 256 + a.o3) * 256 + a.o4

/-- An IPv4 network prefix, as produced by `ip_network` (canonical base). -/
structure IPv4Network : Type where
  base : IPv4Addr
  prefixLen : Nat
deriving DecidableEq

/-- Python `address in network` for IPv4: the first `prefixLen` bits agree. -/
def addressInNetwork (address : IPv4Addr) (network : IPv4Network) : Bool :=
  address.toNat / 2 ^ (32 - network.prefixLen) ==
    network.base.toNat / 2 ^ (32 - network.prefixLen)

/-- Embedding of `isAddressInNetworks` (Server.py lines 34-47). -/
def isAddressInNetworks (address : IPv4Addr) (networks : List IPv4Network) : Bool :=
  match networks with
  | [] => false
  | network :: rest =>
    if addressInNetwork address network then true
    else isAddressInNetworks address rest

/-- The entries of the forwarded header: split on commas, each stripped
(Server.py line 115). -/
def forwardedEntries (header : List Char) : List (List Char) :=
  (splitOnChar ',' header).map pyStrip

/-- The right-to-left walk of `getRemoteAddress` (Server.py lines 120-132);
the list argument is the reversed entry list. -/
def forwardedWalk (trustedProxies : List IPv4Network) (candidateAddress : List Char) :
    List (List Char) → List Char
  | [] => candidateAddress
  | forwarded :: rest =>
    match ip_address (getAddressWithoutPort forwarded) with
    | none => candidateAddress
    | some address =>
      if isAddressInNetworks address trustedProxies then
        forwardedWalk trustedProxies address.compressed rest
      else
        address.compressed

/-- Embedding of `TrustedProxiesFix.getRemoteAddress` (Server.py lines
73-132) over the IPv4 model.  `none` is the `ValueError` raised for an
unparsable (or empty) `REMOTE_ADDR`; a `none` header means
`HTTP_X_FORWARDED_FOR` is absent from the WSGI environment.  The raw
address is parsed before the header check, exactly as in the source. -/
def getRemoteAddress (remoteAddr : List Char) (forwardedFor : Option (List Char))
    (trustedProxies : List IPv4Network) : Option (List Char) :=
  match ip_address (getAddressWithoutPort remoteAddr) with
  | none => none
  | some remoteAddress =>
    match forwardedFor with
    | none => some remoteAddr
    | some header =>
      if isAddressInNetworks remoteAddress trustedProxies = false then
        some remoteAddr
      else
        some (forwardedWalk trustedProxies remoteAddress.compressed
          (forwardedEntries header).reverse)

/-- The parsed address of a forwarded entry, after port stripping. -/
def entryAddress (e : List Char) : Option IPv4Addr :=
  ip_address (getAddressWithoutPort e)

/-- Whether a forwarded entry parses as an IP address. -/
def entryValid (e : List Char) : Bool :=
  (entryAddress e).isSome

/-- Whether a forwarded entry parses and lies in the trusted set. -/
def entryTrusted (trustedProxies : List IPv4Network) (e : List Char) : Bool :=
  match entryAddress e with
  | some a => isAddressInNetworks a trustedProxies
  | none => false

/-- The compressed form of a valid entry (empty for invalid ones). -/
def entryCompressed (e : List Char) : List Char :=
  match entryAddress e with
  | some a => a.compressed
  | none => []

/-- Spec-side definition for the truncation claim (C5): the candidate
tracked while walking a sequence of entries right-to-left — replaced at
each trusted valid entry, starting from the raw address's compressed form. -/
def lastTrustedCandidate (trustedProxies : List IPv4Network) (initial : List Char)
    (entriesRightToLeft : List (List Char)) : List Char :=
  entriesRightToLeft.foldl
    (fun cand e =>
      match entryAddress e with
      | some a => if isAddressInNetworks a trustedProxies then a.compressed else cand
      | none => cand)
    initial

/-- The walk passes over a block of valid trusted entries, carrying the
candidate computed by `lastTrustedCandidate`. -/
theorem forwardedWalk_append (trustedProxies : List IPv4Network)
    (rs1 : List (List Char)) :
    ∀ (rs2 : List (List Char)) (cand : List Char),
    (∀ e ∈ rs1, entryValid e = true ∧ entryTrusted trustedProxies e = true) →
    forwardedWalk trustedProxies cand (rs1 ++ rs2) =
      forwardedWalk trustedProxies (lastTrustedCandidate trustedProxies cand rs1) rs2 := by
  induction rs1 with
  | nil =>
    intro rs2 cand h
    rfl
  | cons e rest ih =>
    intro rs2 cand h
    have he := h e (List.mem_cons_self e rest)
    cases ha : entryAddress e with
    | none =>
      have hv := he.1
      unfold entryValid at hv
      rw [ha] at hv
      exact absurd hv (by simp)
    | some a =>
      have ht := he.2
      unfold entryTrusted at ht
      rw [ha] at ht
      have ht' : isAddressInNetworks a trustedProxies = true := ht
      have ha' : ip_address (getAddressWithoutPort e) = some a := ha
      have hstep : forwardedWalk trustedProxies cand ((e :: rest) ++ rs2) =
          forwardedWalk trustedProxies a.compressed (rest ++ rs2) := by
        show forwardedWalk trustedProxies cand (e :: (rest ++ rs2)) = _
        simp only [forwardedWalk, ha', ht', if_true]
      have hcand : lastTrustedCandidate trustedProxies cand (e :: rest) =
          lastTrustedCandidate trustedProxies a.compressed rest := by
        simp only [lastTrustedCandidate, List.foldl_cons, ha, ht', if_true]
      rw [hstep, hcand]
      exact ih rs2 a.compressed (fun x hx => h x (List.mem_cons_of_mem e hx))

/-- When the final entry of the scanned sequence is valid and trusted, the
tracked candidate is exactly its compressed address. -/
theorem lastTrustedCandidate_getLast (trustedProxies : List IPv4Network)
    (rs : List (List Char)) :
    ∀ (cand : List Char) (e : List Char) (a : IPv4Addr),
    rs.getLast? = some e → entryAddress e = some a →
    isAddressInNetworks a trustedProxies = true →
    lastTrustedCandidate trustedProxies cand rs = a.compressed := by
  induction rs with
  | nil =>
    intro cand e a hlast _ _
    exact absurd hlast (by simp)
  | cons x rest ih =>
    intro cand e a hlast ha ht
    cases rest with
    | nil =>
      have hx : x = e := by
        simpa [List.getLast?] using hlast
      subst hx
      simp only [lastTrustedCandidate, List.foldl_cons, List.foldl_nil, ha, ht, if_true]
    | cons y rest' =>
      rw [List.getLast?_cons_cons] at hlast
      have step : lastTrustedCandidate trustedProxies cand (x :: y :: rest') =
          lastTrustedCandidate trustedProxies
            (match entryAddress x with
             | some b => if isAddressInNetworks b trustedProxies then b.compressed else cand
             | none => cand) (y :: rest') := by
        simp only [lastTrustedCandidate, List.foldl_cons]
      rw [step]
      exact ih _ e a hlast ha ht

/-- A successful `find?` splits the list at the first match. -/
theorem find?_decomp {α : Type} (p : α → Bool) (l : List α) (a : α)
    (h : l.find? p = some a) :
    ∃ l1 l2, l = l1 ++ a :: l2 ∧ (∀ x ∈ l1, p x = false) ∧ p a = true := by
  induction l with
  | nil => exact absurd h (by simp)
  | cons x rest ih =>
    by_cases hp : p x = true
    · rw [List.find?_cons_of_pos rest hp] at h
      obtain rfl : x = a := Option.some.inj h
      exact ⟨[], rest, rfl, by intro y hy; exact absurd hy (by simp), hp⟩
    · rw [List.find?_cons_of_neg rest hp] at h
      obtain ⟨l1, l2, hsplit, h1, h2⟩ := ih h
      refine ⟨x :: l1, l2, by rw [hsplit, List.cons_append], ?_, h2⟩
      intro y hy
      rcases List.mem_cons.mp hy with hyx | hyl
      · subst hyx
        exact Bool.not_eq_true _ ▸ (by simpa using hp)
      · exact h1 y hyl

/-- With a parsable trusted raw peer and a header present, the resolver is
the walk over the reversed entries. -/
theorem getRemoteAddress_trusted (remoteAddr header : List Char)
    (trustedProxies : List IPv4Network) (remoteAddress : IPv4Addr)
    (hparse : ip_address (getAddressWithoutPort remoteAddr) = some remoteAddress)
    (htrusted : isAddressInNetworks remoteAddress trustedProxies = true) :
    getRemoteAddress remoteAddr (some header) trustedProxies =
      some (forwardedWalk trustedProxies remoteAddress.compressed
        (forwardedEntries header).reverse) := by
  unfold getRemoteAddress
  rw [hparse]
  show (if isAddressInNetworks remoteAddress trustedProxies = false then some remoteAddr
      else some (forwardedWalk trustedProxies remoteAddress.compressed
        (forwardedEntries header).reverse)) = _
  rw [if_neg (by simp [htrusted])]

/-- C4: with every header entry parsing as an IP address (in the IPv4 model
of `ip_address`), `getRemoteAddress` returns the raw remote address string
unchanged (trailing port preserved) when no forwarded header is present or
the parsed raw address is untrusted; otherwise it returns, compressed, the
right-most entry outside the trusted networks, and the left-most entry
(compressed) when every entry is trusted. -/
theorem c4_resolver (remoteAddr : List Char) (forwardedFor : Option (List Char))
    (trustedProxies : List IPv4Network) (remoteAddress : IPv4Addr)
    (hparse : ip_address (getAddressWithoutPort remoteAddr) = some remoteAddress) :
    (forwardedFor = none →
      getRemoteAddress remoteAddr forwardedFor trustedProxies = some remoteAddr) ∧
    (isAddressInNetworks remoteAddress trustedProxies = false →
      getRemoteAddress remoteAddr forwardedFor trustedProxies = some remoteAddr) ∧
    (∀ header e, forwardedFor = some header →
      isAddressInNetworks remoteAddress trustedProxies = true →
      (∀ x ∈ forwardedEntries header, entryValid x = true) →
      (forwardedEntries header).reverse.find?
          (fun x => !(entryTrusted trustedProxies x)) = some e →
      getRemoteAddress remoteAddr forwardedFor trustedProxies =
        some (entryCompressed e)) ∧
    (∀ header e, forwardedFor = some header →
      isAddressInNetworks remoteAddress trustedProxies = true →
      (∀ x ∈ forwardedEntries header, entryValid x = true) →
      (∀ x ∈ forwardedEntries header, entryTrusted trustedProxies x = true) →
      (forwardedEntries header).head? = some e →
      getRemoteAddress remoteAddr forwardedFor trustedProxies =
        some (entryCompressed e)) := by
  refine ⟨?_, ?_, ?_, ?_⟩
  · intro hnone
    subst hnone
    unfold getRemoteAddress
    rw [hparse]
  · intro huntrusted
    unfold getRemoteAddress
    rw [hparse]
    cases forwardedFor with
    | none => rfl
    | some header =>
      show (if isAddressInNetworks remoteAddress trustedProxies = false then some remoteAddr
          else some (forwardedWalk trustedProxies remoteAddress.compressed
            (forwardedEntries header).reverse)) = _
      rw [if_pos huntrusted]
  · intro header e hsome htrusted hvalid hfind
    subst hsome
    rw [getRemoteAddress_trusted remoteAddr header trustedProxies remoteAddress hparse htrusted]
    obtain ⟨l1, l2, hsplit, h1, h2⟩ := find?_decomp _ _ _ hfind
    have hvalid' : ∀ x ∈ l1, entryValid x = true ∧ entryTrusted trustedProxies x = true := by
      intro x hx
      have hmem : x ∈ (forwardedEntries header).reverse := by
        rw [hsplit]
        exact List.mem_append_left _ hx
      refine ⟨hvalid x (List.mem_reverse.mp hmem), ?_⟩
      have := h1 x hx
      simpa using this
    rw [hsplit, forwardedWalk_append trustedProxies l1 (e :: l2)
      remoteAddress.compressed hvalid']
    have hev : entryValid e = true := by
      refine hvalid e (List.mem_reverse.mp ?_)
      rw [hsplit]
      exact List.mem_append_right _ (List.mem_cons_self e l2)
    cases ha : entryAddress e with
    | none =>
      unfold entryValid at hev
      rw [ha] at hev
      exact absurd hev (by simp)
    | some a =>
      have hnt : isAddressInNetworks a trustedProxies = false := by
        have h2' := h2
        unfold entryTrusted at h2'
        rw [ha] at h2'
        simpa using h2'
      have ha' : ip_address (getAddressWithoutPort e) = some a := ha
      simp only [forwardedWalk, ha', hnt, if_false, Bool.false_eq_true]
      unfold entryCompressed
      rw [ha]
  · intro header e hsome htrusted hvalid halltrusted hhead
    subst hsome
    rw [getRemoteAddress_trusted remoteAddr header trustedProxies remoteAddress hparse htrusted]
    have hvalid' : ∀ x ∈ (forwardedEntries header).reverse,
        entryValid x = true ∧ entryTrusted trustedProxies x = true := by
      intro x hx
      have hmem := List.mem_reverse.mp hx
      exact ⟨hvalid x hmem, halltrusted x hmem⟩
    have happ := forwardedWalk_append trustedProxies (forwardedEntries header).reverse []
      remoteAddress.compressed hvalid'
    rw [List.append_nil] at happ
    rw [happ]
    have hlast : (forwardedEntries header).reverse.getLast? = some e := by
      rw [List.getLast?_reverse]
      exact hhead
    have hev : entryValid e = true :=
      hvalid e (by
        have := List.mem_reverse.mp (List.mem_of_getLast?_eq_some hlast)
        simpa using this)
    cases ha : entryAddress e with
    | none =>
      unfold entryValid at hev
      rw [ha] at hev
      exact absurd hev (by simp)
    | some a =>
      have ht : isAddressInNetworks a trustedProxies = true := by
        have := halltrusted e (by
          have := List.mem_reverse.mp (List.mem_of_getLast?_eq_some hlast)
          simpa using this)
        unfold entryTrusted at this
        rw [ha] at this
        exact this
      rw [show forwardedWalk trustedProxies
          (lastTrustedCandidate trustedProxies remoteAddress.compressed
            (forwardedEntries header).reverse) [] =
          lastTrustedCandidate trustedProxies remoteAddress.compressed
            (forwardedEntries header).reverse from rfl,
        lastTrustedCandidate_getLast trustedProxies _ _ e a hlast ha ht]
      unfold entryCompressed
      rw [ha]

/-- Trusted set for the C4 witness scenario. -/
def exTrustedC4 : List IPv4Network := [{ base := ⟨4, 8, 15, 16⟩, prefixLen := 32 }]

/-- C4, witness: the spec's scenario — raw address 4.8.15.16, header
`23.42.108.0`, trusted set {4.8.15.16/32} — resolves to 23.42.108.0. -/
theorem c4_resolver_witness :
    getRemoteAddress ("4.8.15.16".toList) (some ("23.42.108.0".toList)) exTrustedC4 =
      some ("23.42.108.0".toList) := by
  have h := (c4_resolver ("4.8.15.16".toList) (some ("23.42.108.0".toList)) exTrustedC4
    ⟨4, 8, 15, 16⟩ (by decide)).2.2.1 ("23.42.108.0".toList) ("23.42.108.0".toList)
    rfl (by decide) (by decide) (by decide)
  rw [h]
  decide

/-- Trusted set for the C5 scenario (4.8.15.0/24). -/
def exTrustedC5 : List IPv4Network := [{ base := ⟨4, 8, 15, 0⟩, prefixLen := 24 }]

/-- C5, counterexample: raw peer 4.8.15.16 is trusted and the header
`not-an-ip, 23.42.108.0` contains an invalid entry, yet the resolver
returns 23.42.108.0 — not the claim's "last valid trusted candidate found
before the invalid token", which here is the initial raw compressed address
4.8.15.16 (no trusted candidate lies to the invalid token's right).  The
walk returned at the untrusted valid entry before ever reaching the
invalid one. -/
theorem c5_counterexample :
    isAddressInNetworks ⟨4, 8, 15, 16⟩ exTrustedC5 = true ∧
    entryValid ("not-an-ip".toList) = false ∧
    forwardedEntries ("not-an-ip, 23.42.108.0".toList) =
      ["not-an-ip".toList, "23.42.108.0".toList] ∧
    lastTrustedCandidate exTrustedC5 (IPv4Addr.compressed ⟨4, 8, 15, 16⟩)
      ["23.42.108.0".toList] = "4.8.15.16".toList ∧
    getRemoteAddress ("4.8.15.16".toList) (some ("not-an-ip, 23.42.108.0".toList))
      exTrustedC5 = some ("23.42.108.0".toList) ∧
    "23.42.108.0".toList ≠ "4.8.15.16".toList := by
  decide

/-- C5 (amended): when the raw peer is trusted and every entry to the right
of an invalid token parses as an IP address in the trusted set — so that the
right-to-left walk actually reaches the invalid token — the resolver
returns the last valid trusted candidate found before it (initially the raw
remote address in compressed form), ignoring everything to the invalid
token's left.  An untrusted valid entry to the invalid token's right is
returned instead, without the invalid entry ever being examined. -/
theorem c5_truncation (remoteAddr : List Char) (trustedProxies : List IPv4Network)
    (remoteAddress : IPv4Addr) (header : List Char)
    (es1 es2 : List (List Char)) (bad : List Char)
    (hparse : ip_address (getAddressWithoutPort remoteAddr) = some remoteAddress)
    (htrusted : isAddressInNetworks remoteAddress trustedProxies = true)
    (hsplit : forwardedEntries header = es1 ++ bad :: es2)
    (hbad : entryValid bad = false)
    (hright : ∀ x ∈ es2, entryValid x = true ∧ entryTrusted trustedProxies x = true) :
    getRemoteAddress remoteAddr (some header) trustedProxies =
      some (lastTrustedCandidate trustedProxies remoteAddress.compressed es2.reverse) := by
  rw [getRemoteAddress_trusted remoteAddr header trustedProxies remoteAddress hparse htrusted,
    hsplit]
  have hrev : (es1 ++ bad :: es2).reverse = es2.reverse ++ bad :: es1.reverse := by
    simp [List.reverse_append]
  rw [hrev]
  have hright' : ∀ x ∈ es2.reverse,
      entryValid x = true ∧ entryTrusted trustedProxies x = true := by
    intro x hx
    exact hright x (List.mem_reverse.mp hx)
  rw [forwardedWalk_append trustedProxies es2.reverse (bad :: es1.reverse)
    remoteAddress.compressed hright']
  have hbad' : ip_address (getAddressWithoutPort bad) = none := by
    unfold entryValid entryAddress at hbad
    cases hb : ip_address (getAddressWithoutPort bad) with
    | none => rfl
    | some a =>
      rw [hb] at hbad
      exact absurd hbad (by simp)
  simp only [forwardedWalk, hbad']

/-- C5, witness: the spec's scenario — raw address 4.8.15.16, header
`23.42.108.0, not-an-ip, 4.8.15.108`, trusted set {4.8.15.0/24} — resolves
to 4.8.15.108, the candidate found before the invalid token. -/
theorem c5_truncation_witness :
    forwardedEntries ("23.42.108.0, not-an-ip, 4.8.15.108".toList) =
      ["23.42.108.0".toList] ++ "not-an-ip".toList :: ["4.8.15.108".toList] ∧
    getRemoteAddress ("4.8.15.16".toList)
        (some ("23.42.108.0, not-an-ip, 4.8.15.108".toList)) exTrustedC5 =
      some ("4.8.15.108".toList) := by
  refine ⟨by decide, ?_⟩
  have h := c5_truncation ("4.8.15.16".toList) exTrustedC5 ⟨4, 8, 15, 16⟩
    ("23.42.108.0, not-an-ip, 4.8.15.108".toList)
    ["23.42.108.0".toList] ["4.8.15.108".toList] ("not-an-ip".toList)
    (by decide) (by decide) (by decide) (by decide) (by decide)
  rw [h]
  decide

/-- Reduction to a 32-bit word. -/
def w32 (n : Nat) : Nat := n % 4294967296

/-- Right rotation of a 32-bit word. -/
def rotr (n x : Nat) : Nat := w32 (x / 2 ^ n + x % 2 ^ n * 2 ^ (32 - n))

/-- SHA-256 `Ch`. -/
def chWord (x y z : Nat) : Nat :=
  Nat.xor (Nat.land x y) (Nat.land (Nat.xor x 4294967295) z)

/-- SHA-256 `Maj`. -/
def majWord (x y z : Nat) : Nat :=
  Nat.xor (Nat.land x y) (Nat.xor (Nat.land x z) (Nat.land y z))

/-- SHA-256 big sigma 0. -/
def bigSigma0 (x : Nat) : Nat := Nat.xor (rotr 2 x) (Nat.xor (rotr 13 x) (rotr 22 x))

/-- SHA-256 big sigma 1. -/
def bigSigma1 (x : Nat) : Nat := Nat.xor (rotr 6 x) (Nat.xor (rotr 11 x) (rotr 25 x))

/-- SHA-256 small sigma 0. -/
def smallSigma0 (x : Nat) : Nat := Nat.xor (rotr 7 x) (Nat.xor (rotr 18 x) (x / 2 ^ 3))

/-- SHA-256 small sigma 1. -/
def smallSigma1 (x : Nat) : Nat := Nat.xor (rotr 17 x) (Nat.xor (rotr 19 x) (x / 2 ^ 10))

/-- The 64 SHA-256 round constants. -/
def sha256K : List Nat :=
  [1116352408, 1899447441, 3049323471, 3921009573, 961987163, 1508970993,
   2453635748, 2870763221, 3624381080, 310598401, 607225278, 1426881987,
   1925078388, 2162078206, 2614888103, 3248222580, 3835390401, 4022224774,
   264347078, 604807628, 770255983, 1249150122, 1555081692, 1996064986,
   2554220882, 2821834349, 2952996808, 3210313671, 3336571891, 3584528711,
   113926993, 338241895, 666307205, 773529912, 1294757372, 1396182291,
   1695183700, 1986661051, 2177026350, 2456956037, 2730485921, 2820302411,
   3259730800, 3345764771, 3516065817, 3600352804, 4094571909, 275423344,
   430227734, 506948616, 659060556, 883997877, 958139571, 1322822218,
   1537002063, 1747873779, 1955562222, 2024104815, 2227730452, 2361852424,
   2428436474, 2756734187, 3204031479, 3329325298]

/-- The SHA-256 initial hash value. -/
def sha256Init : List Nat :=
  [1779033703, 3144134277, 1013904242, 2773480762, 1359893119, 2600822924,
   528734635, 1541459225]

/-- Big-endian bytes of a number, `k` bytes wide. -/
def natToBytesBE : Nat → Nat → List Nat
  | 0, _ => []
  | k + 1, n => natToBytesBE k (n / 256) ++ [n % 256]

/-- Big-endian 32-bit words from bytes. -/
def bytesToWords : List Nat → List Nat
  | b1 :: b2 :: b3 :: b4 :: rest =>
    (((b1 * 256 + b2) * 256 + b3) * 256 + b4) :: bytesToWords rest
  | _ => []

/-- SHA-256 message padding: `0x80`, zeros, and the 64-bit bit length. -/
def sha256Pad (msg : List Nat) : List Nat :=
  msg ++ 128 :: List.replicate ((119 - msg.length % 64) % 64) 0 ++
    natToBytesBE 8 (msg.length * 8)

/-- Extension of the 16-word schedule by `k` further words. -/
def extendSchedule : List Nat → Nat → List Nat
  | ws, 0 => ws
  | ws, k + 1 =>
    let n := ws.length
    extendSchedule
      (ws ++ [w32 (ws.getD (n - 16) 0 + smallSigma0 (ws.getD (n - 15) 0) +
        ws.getD (n - 7) 0 + smallSigma1 (ws.getD (n - 2) 0))]) k

/-- One SHA-256 round on the eight working variables. -/
def sha256Round (state : List Nat) (kw : Nat × Nat) : List Nat :=
  match state with
  | [a, b, c, d, e, f, g, h] =>
    let t1 := w32 (h + bigSigma1 e + chWord e f g + kw.1 + kw.2)
    let t2 := w32 (bigSigma0 a + majWord a b c)
    [w32 (t1 + t2), a, b, c, w32 (d + t1), e, f, g]
  | other => other

/-- Compression of one 64-byte block into the hash state. -/
def sha256Block (state : List Nat) (block : List Nat) : List Nat :=
  let ws := extendSchedule (bytesToWords block) 48
  let compressed := (sha256K.zip ws).foldl sha256Round state
  List.zipWith (fun x y => w32 (x + y)) state compressed

/-- Fold of the compression over all 64-byte blocks. -/
def sha256Blocks (state : List Nat) : List Nat → List Nat
  | [] => state
  | b :: rest =>
    sha256Blocks (sha256Block state ((b :: rest).take 64)) ((b :: rest).drop 64)
termination_by msg => msg.length
decreasing_by
  simp only [List.drop, List.length_drop, List.length_cons]
  omega

/-- SHA-256 of a byte list, as 32 bytes (the `hashlib.sha256` digest). -/
def sha256 (msg : List Nat) : List Nat :=
  ((sha256Blocks sha256Init (sha256Pad msg)).map (natToBytesBE 4)).flatten

/-- HMAC-SHA256 (`hmac.new(key, msg, hashlib.sha256).digest()`): block size
64, long keys pre-hashed, inner pad `0x36`, outer pad `0x5c`. -/
def hmacSha256 (key msg : List Nat) : List Nat :=
  let key1 := if key.length > 64 then sha256 key else key
  let key2 := key1 ++ List.replicate (64 - key1.length) 0
  let ipadKey := key2.map (fun b => Nat.xor b 54)
  let opadKey := key2.map (fun b => Nat.xor b 92)
  sha256 (opadKey ++ sha256 (ipadKey ++ msg))

/-- A lowercase hexadecimal digit. -/
def hexDigitChar (n : Nat) : Char :=
  if n < 10 then Char.ofNat (48 + n) else Char.ofNat (87 + n)

/-- Lowercase hex encoding of bytes (`hexdigest()`). -/
def bytesToHex (bs : List Nat) : List Char :=
  (bs.map (fun b => [hexDigitChar (b / 16), hexDigitChar (b % 16)])).flatten

/-- UTF-8 encoding of one code point. -/
def utf8EncodeChar (c : Char) : List Nat :=
  let n := c.toNat
  if n < 128 then [n]
  else if n < 2048 then [192 + n / 64, 128 + n % 64]
  else if n < 65536 then [224 + n / 4096, 128 + n / 64 % 64, 128 + n % 64]
  else [240 + n / 262144, 128 + n / 4096 % 64, 128 + n / 64 % 64, 128 + n % 64]

/-- Python `str.encode()` (UTF-8). -/
def strEncode (s : String) : List Nat :=
  (s.data.map utf8EncodeChar).flatten

/-- Embedding of `_calculateChecksum` (Server.py lines 269-275): the hex
HMAC-SHA256 keyed by the backend secret over nonce bytes followed by the
raw body bytes. -/
def calculateChecksum (secret random : String) (body : List Nat) : String :=
  String.mk (bytesToHex (hmacSha256 (strEncode secret) (strEncode random ++ body)))

/-- An inbound request as `_validateRequest` sees it: headers, the declared
`Content-Length` (`none` when the header is missing or invalid), and the
raw body bytes returned by `request.get_data()`. -/
structure HttpRequest : Type where
  headers : List (String × String)
  contentLength : Option Nat
  body : List Nat

/-- Header lookup (werkzeug header matching is case-insensitive; the model
uses the canonical spellings the backend sends). -/
def headerGet (headers : List (String × String)) (k : String) : Option String :=
  dictGet k headers

/-- The failure site of `_validateRequest`; the first five map to
`Forbidden` or `BadRequest` responses, `jsonRaises` is the
`json.JSONDecodeError` escaping from `json.loads` on a malformed body. -/
inductive ValErr : Type where
  | forbiddenMissingBackendHeader : ValErr
  | forbiddenNoSecret : ValErr
  | forbiddenMissingRandomHeader : ValErr
  | forbiddenMissingChecksumHeader : ValErr
  | badRequestMessageSize : ValErr
  | forbiddenChecksum : ValErr
  | jsonRaises : ValErr
deriving DecidableEq

/-- Embedding of `_validateRequest` (Server.py lines 223-267).  The
external configuration is passed as the lookup functions
`getBackendSecret` (`none` models both a missing backend section and an
empty secret — the code tests `not secret`) and
`getBackendMaximumMessageSize` (default 1024 in `Config`); `jsonLoads`
stands for Python's `json.loads` (`none` = raise).  The checksum
comparison is `hmac.compare_digest`, whose result is plain string
equality (its constant-time execution is a timing property outside this
embedding).  The size gate runs before the body is read: it depends only
on the declared content length. -/
def validateRequest (getBackendSecret : String → Option String)
    (getBackendMaximumMessageSize : String → Nat)
    (jsonLoads : List Nat → Option Json) (request : HttpRequest) :
    Except ValErr (String × Json) :=
  match headerGet request.headers "Talk-Recording-Backend" with
  | none => Except.error ValErr.forbiddenMissingBackendHeader
  | some backend =>
  match getBackendSecret backend with
  | none => Except.error ValErr.forbiddenNoSecret
  | some secret =>
  if secret = "" then Except.error ValErr.forbiddenNoSecret else
  match headerGet request.headers "Talk-Recording-Random" with
  | none => Except.error ValErr.forbiddenMissingRandomHeader
  | some random =>
  match headerGet request.headers "Talk-Recording-Checksum" with
  | none => Except.error ValErr.forbiddenMissingChecksumHeader
  | some checksum =>
  let maximumMessageSize := getBackendMaximumMessageSize backend
  match request.contentLength with
  | none => Except.error ValErr.badRequestMessageSize
  | some contentLength =>
  if contentLength = 0 then Except.error ValErr.badRequestMessageSize else
  if contentLength > maximumMessageSize then Except.error ValErr.badRequestMessageSize else
  let body := request.body
  let expectedChecksum := calculateChecksum secret random body
  if checksum ≠ expectedChecksum then Except.error ValErr.forbiddenChecksum else
  match jsonLoads body with
  | none => Except.error ValErr.jsonRaises
  | some data => Except.ok (backend, data)

/-- With the three headers present and a configured non-empty secret, the
validator is the size gate followed by the checksum gate and JSON parse. -/
theorem validateRequest_gates (getBackendSecret : String → Option String)
    (getBackendMaximumMessageSize : String → Nat)
    (jsonLoads : List Nat → Option Json) (request : HttpRequest)
    (backend secret random checksum : String)
    (hb : headerGet request.headers "Talk-Recording-Backend" = some backend)
    (hs : getBackendSecret backend = some secret)
    (hs' : secret ≠ "")
    (hr : headerGet request.headers "Talk-Recording-Random" = some random)
    (hc : headerGet request.headers "Talk-Recording-Checksum" = some checksum) :
    validateRequest getBackendSecret getBackendMaximumMessageSize jsonLoads request =
      (match request.contentLength with
       | none => Except.error ValErr.badRequestMessageSize
       | some contentLength =>
         if contentLength = 0 then Except.error ValErr.badRequestMessageSize
         else if contentLength > getBackendMaximumMessageSize backend then
           Except.error ValErr.badRequestMessageSize
         else if checksum ≠ calculateChecksum secret random request.body then
           Except.error ValErr.forbiddenChecksum
         else match jsonLoads request.body with
           | none => Except.error ValErr.jsonRaises
           | some data => Except.ok (backend, data)) := by
  simp only [validateRequest, hb, hs, hr, hc]
  rw [if_neg hs']

/-- With all gates up to and including the size gate passed, the validator
is the checksum comparison followed by the JSON parse. -/
theorem validateRequest_sized (getBackendSecret : String → Option String)
    (getBackendMaximumMessageSize : String → Nat)
    (jsonLoads : List Nat → Option Json) (request : HttpRequest)
    (backend secret random checksum : String) (n : Nat)
    (hb : headerGet request.headers "Talk-Recording-Backend" = some backend)
    (hs : getBackendSecret backend = some secret)
    (hs' : secret ≠ "")
    (hr : headerGet request.headers "Talk-Recording-Random" = some random)
    (hc : headerGet request.headers "Talk-Recording-Checksum" = some checksum)
    (hl : request.contentLength = some n)
    (hn0 : n ≠ 0)
    (hnm : ¬ n > getBackendMaximumMessageSize backend) :
    validateRequest getBackendSecret getBackendMaximumMessageSize jsonLoads request =
      (if checksum ≠ calculateChecksum secret random request.body then
        Except.error ValErr.forbiddenChecksum
      else match jsonLoads request.body with
        | none => Except.error ValErr.jsonRaises
        | some data => Except.ok (backend, data)) := by
  rw [validateRequest_gates getBackendSecret getBackendMaximumMessageSize jsonLoads
    request backend secret random checksum hb hs hs' hr hc, hl]
  show (if n = 0 then (Except.error ValErr.badRequestMessageSize : Except ValErr (String × Json))
      else if n > getBackendMaximumMessageSize backend then
        Except.error ValErr.badRequestMessageSize
      else if checksum ≠ calculateChecksum secret random request.body then
        Except.error ValErr.forbiddenChecksum
      else match jsonLoads request.body with
        | none => Except.error ValErr.jsonRaises
        | some data => Except.ok (backend, data)) = _
  rw [if_neg hn0, if_neg hnm]

/-- C6: once the header, secret, and size gates have passed, the validator
raises Forbidden (at the checksum site) exactly when the supplied
`Talk-Recording-Checksum` differs from the hex HMAC-SHA256 keyed by the
backend secret over nonce bytes followed by the body bytes; when they are
equal and the body parses it returns the backend id and the parsed body.
Consequently any request presenting the same checksum whose nonce or body
changed so that the recomputed HMAC differs is rejected with Forbidden. -/
theorem c6_checksum (getBackendSecret : String → Option String)
    (getBackendMaximumMessageSize : String → Nat)
    (jsonLoads : List Nat → Option Json) (request : HttpRequest)
    (backend secret random checksum : String) (n : Nat)
    (hb : headerGet request.headers "Talk-Recording-Backend" = some backend)
    (hs : getBackendSecret backend = some secret)
    (hs' : secret ≠ "")
    (hr : headerGet request.headers "Talk-Recording-Random" = some random)
    (hc : headerGet request.headers "Talk-Recording-Checksum" = some checksum)
    (hl : request.contentLength = some n)
    (hn0 : n ≠ 0)
    (hnm : ¬ n > getBackendMaximumMessageSize backend) :
    (validateRequest getBackendSecret getBackendMaximumMessageSize jsonLoads request =
        Except.error ValErr.forbiddenChecksum ↔
      checksum ≠ calculateChecksum secret random request.body) ∧
    (checksum = calculateChecksum secret random request.body →
      ∀ data, jsonLoads request.body = some data →
      validateRequest getBackendSecret getBackendMaximumMessageSize jsonLoads request =
        Except.ok (backend, data)) ∧
    (∀ (request2 : HttpRequest) (random2 : String) (n2 : Nat),
      headerGet request2.headers "Talk-Recording-Backend" = some backend →
      headerGet request2.headers "Talk-Recording-Random" = some random2 →
      headerGet request2.headers "Talk-Recording-Checksum" = some checksum →
      request2.contentLength = some n2 → n2 ≠ 0 →
      ¬ n2 > getBackendMaximumMessageSize backend →
      checksum = calculateChecksum secret random request.body →
      calculateChecksum secret random2 request2.body ≠
        calculateChecksum secret random request.body →
      validateRequest getBackendSecret getBackendMaximumMessageSize jsonLoads request2 =
        Except.error ValErr.forbiddenChecksum) := by
  have hform := validateRequest_sized getBackendSecret getBackendMaximumMessageSize
    jsonLoads request backend secret random checksum n hb hs hs' hr hc hl hn0 hnm
  refine ⟨⟨?_, ?_⟩, ?_, ?_⟩
  · intro hval
    by_cases heq : checksum = calculateChecksum secret random request.body
    · rw [hform, if_neg (by simp [heq])] at hval
      cases hj : jsonLoads request.body with
      | none =>
        rw [hj] at hval
        exact absurd hval (by simp)
      | some d =>
        rw [hj] at hval
        exact absurd hval (by simp)
    · exact heq
  · intro hne
    rw [hform, if_pos hne]
  · intro heq data hj
    rw [hform, if_neg (by simp [heq]), hj]
  · intro request2 random2 n2 hb2 hr2 hc2 hl2 hn02 hnm2 heq hdiff
    have hform2 := validateRequest_sized getBackendSecret getBackendMaximumMessageSize
      jsonLoads request2 backend secret random2 checksum n2 hb2 hs hs' hr2 hc2 hl2 hn02 hnm2
    rw [hform2, if_pos ?_]
    rw [heq]
    exact fun hcon => hdiff hcon.symm

/-- C7: with the header and secret gates passed, a declared content length
that is missing, zero, or strictly above the backend's configured maximum
is rejected with BadRequest at the size gate before the body is read (the
outcome is the same for every body, so neither the body nor the checksum
over it is ever consulted); a declared length of exactly the maximum
passes this gate (the outcome is never the size rejection), and maximum
plus one is rejected. -/
theorem c7_size_gate (getBackendSecret : String → Option String)
    (getBackendMaximumMessageSize : String → Nat)
    (jsonLoads : List Nat → Option Json) (request : HttpRequest)
    (backend secret random checksum : String)
    (hb : headerGet request.headers "Talk-Recording-Backend" = some backend)
    (hs : getBackendSecret backend = some secret)
    (hs' : secret ≠ "")
    (hr : headerGet request.headers "Talk-Recording-Random" = some random)
    (hc : headerGet request.headers "Talk-Recording-Checksum" = some checksum) :
    (request.contentLength = none →
      ∀ body2 : List Nat,
        validateRequest getBackendSecret getBackendMaximumMessageSize jsonLoads
          { request with body := body2 } = Except.error ValErr.badRequestMessageSize) ∧
    (request.contentLength = some 0 →
      ∀ body2 : List Nat,
        validateRequest getBackendSecret getBackendMaximumMessageSize jsonLoads
          { request with body := body2 } = Except.error ValErr.badRequestMessageSize) ∧
    (∀ n, request.contentLength = some n → n > getBackendMaximumMessageSize backend →
      ∀ body2 : List Nat,
        validateRequest getBackendSecret getBackendMaximumMessageSize jsonLoads
          { request with body := body2 } = Except.error ValErr.badRequestMessageSize) ∧
    (request.contentLength = some (getBackendMaximumMessageSize backend) →
      0 < getBackendMaximumMessageSize backend →
      validateRequest getBackendSecret getBackendMaximumMessageSize jsonLoads request ≠
        Except.error ValErr.badRequestMessageSize) ∧
    (request.contentLength = some (getBackendMaximumMessageSize backend + 1) →
      validateRequest getBackendSecret getBackendMaximumMessageSize jsonLoads request =
        Except.error ValErr.badRequestMessageSize) := by
  refine ⟨?_, ?_, ?_, ?_, ?_⟩
  · intro hnone body2
    have hform := validateRequest_gates getBackendSecret getBackendMaximumMessageSize
      jsonLoads { request with body := body2 } backend secret random checksum hb hs hs' hr hc
    rw [hform]
    rw [show ({ request with body := body2 } : HttpRequest).contentLength =
      request.contentLength from rfl, hnone]
  · intro hzero body2
    have hform := validateRequest_gates getBackendSecret getBackendMaximumMessageSize
      jsonLoads { request with body := body2 } backend secret random checksum hb hs hs' hr hc
    rw [hform]
    rw [show ({ request with body := body2 } : HttpRequest).contentLength =
      request.contentLength from rfl, hzero]
    rfl
  · intro n hn hover body2
    have hform := validateRequest_gates getBackendSecret getBackendMaximumMessageSize
      jsonLoads { request with body := body2 } backend secret random checksum hb hs hs' hr hc
    rw [hform]
    rw [show ({ request with body := body2 } : HttpRequest).contentLength =
      request.contentLength from rfl, hn]
    show (if n = 0 then (Except.error ValErr.badRequestMessageSize : Except ValErr (String × Json))
        else if n > getBackendMaximumMessageSize backend then
          Except.error ValErr.badRequestMessageSize
        else if checksum ≠ calculateChecksum secret random body2 then
          Except.error ValErr.forbiddenChecksum
        else match jsonLoads body2 with
          | none => Except.error ValErr.jsonRaises
          | some data => Except.ok (backend, data)) =
      Except.error ValErr.badRequestMessageSize
    rw [if_neg (by omega), if_pos hover]
  · intro hmax hpos
    have hform := validateRequest_sized getBackendSecret getBackendMaximumMessageSize
      jsonLoads request backend secret random checksum
      (getBackendMaximumMessageSize backend) hb hs hs' hr hc hmax (by omega) (by omega)
    rw [hform]
    by_cases hck : checksum ≠ calculateChecksum secret random request.body
    · rw [if_pos hck]
      simp
    · rw [if_neg hck]
      cases hj : jsonLoads request.body with
      | none => simp
      | some d => simp
  · intro hover
    have hform := validateRequest_gates getBackendSecret getBackendMaximumMessageSize
      jsonLoads request backend secret random checksum hb hs hs' hr hc
    rw [hform, hover]
    show (if getBackendMaximumMessageSize backend + 1 = 0 then
          (Except.error ValErr.badRequestMessageSize : Except ValErr (String × Json))
        else if getBackendMaximumMessageSize backend + 1 >
            getBackendMaximumMessageSize backend then
          Except.error ValErr.badRequestMessageSize
        else if checksum ≠ calculateChecksum secret random request.body then
          Except.error ValErr.forbiddenChecksum
        else match jsonLoads request.body with
          | none => Except.error ValErr.jsonRaises
          | some data => Except.ok (backend, data)) =
      Except.error ValErr.badRequestMessageSize
    rw [if_neg (by omega), if_pos (by omega)]

/-- Concrete configuration lookups for the validator witnesses. -/
def exSecretOf : String → Option String := fun _ => some "secret"

/-- The default maximum message size of `Config` (1024). -/
def exMaxOf : String → Nat := fun _ => 1024

/-- A trivial stand-in for `json.loads` in the witnesses. -/
def exJsonLoads : List Nat → Option Json := fun _ => some Json.null

/-- A concrete request whose gates all pass. -/
def exRequest : HttpRequest :=
  { headers := [("Talk-Recording-Backend", "b"), ("Talk-Recording-Random", "nonce"),
      ("Talk-Recording-Checksum", "deadbeef")],
    contentLength := some 4, body := [98, 111, 100, 121] }

/-- The same request declaring exactly the maximum size. -/
def exRequest1024 : HttpRequest :=
  { exRequest with contentLength := some 1024 }

/-- The same request declaring one byte over the maximum size. -/
def exRequest1025 : HttpRequest :=
  { exRequest with contentLength := some 1025 }

/-- C6, witness at a concrete request. -/
theorem c6_checksum_witness :
    headerGet exRequest.headers "Talk-Recording-Checksum" = some "deadbeef" ∧
    (validateRequest exSecretOf exMaxOf exJsonLoads exRequest =
        Except.error ValErr.forbiddenChecksum ↔
      "deadbeef" ≠ calculateChecksum "secret" "nonce" exRequest.body) := by
  refine ⟨rfl, ?_⟩
  exact (c6_checksum exSecretOf exMaxOf exJsonLoads exRequest "b" "secret" "nonce"
    "deadbeef" 4 rfl rfl (by decide) rfl rfl rfl (by decide) (by decide)).1

/-- C7, witness: declared length 1025 is rejected at the size gate, declared
length 1024 (the configured maximum) is not. -/
theorem c7_size_gate_witness :
    validateRequest exSecretOf exMaxOf exJsonLoads exRequest1025 =
      Except.error ValErr.badRequestMessageSize ∧
    validateRequest exSecretOf exMaxOf exJsonLoads exRequest1024 ≠
      Except.error ValErr.badRequestMessageSize := by
  constructor
  · exact (c7_size_gate exSecretOf exMaxOf exJsonLoads exRequest1025 "b" "secret"
      "nonce" "deadbeef" rfl rfl (by decide) rfl rfl).2.2.2.2 rfl
  · exact (c7_size_gate exSecretOf exMaxOf exJsonLoads exRequest1024 "b" "secret"
      "nonce" "deadbeef" rfl rfl (by decide) rfl rfl).2.2.2.1 rfl (by decide)

end TalkRecording
